import Mathlib

/-!
Shallow embedding of `kubenukem` (main.go, current variant): a CLI tool that
deletes a CRD, strips finalizers from stuck instances of its kind, and polls
for the CRD's disappearance.  The cluster API client is modelled as an
explicit record of response functions over an abstract state `σ`; every
procedure additionally returns the list of API calls it issued, so that
claims about which calls are made (and in which order) can be stated.
-/

set_option maxRecDepth 10000

/-- Scope of a CRD (`crd.Spec.Scope`). -/
inductive ResourceScope where
  | NamespaceScoped
  | ClusterScoped
deriving DecidableEq, Repr

/-- One entry of `crd.Spec.Versions`: a version name and its `served` flag. -/
structure CRDVersion where
  name : String
  served : Bool
deriving DecidableEq, Repr

/-- `crd.Spec.Names` (only the `Kind` field is used by the program). -/
structure CRDNames where
  kind : String
deriving DecidableEq, Repr

/-- The fields of `crd.Spec` that the program reads. -/
structure CRDSpec where
  scope : ResourceScope
  group : String
  versions : List CRDVersion
  names : CRDNames
deriving DecidableEq, Repr

/-- A CRD descriptor: object name plus the spec fields used by the program. -/
structure CustomResourceDefinition where
  name : String
  spec : CRDSpec
deriving DecidableEq, Repr

/-- A dynamically-typed resource instance (`unstructured.Unstructured`):
name, namespace (empty string when cluster-scoped, as `GetNamespace` returns),
the finalizer list, and the remaining payload fields as a string-keyed map. -/
structure Unstructured where
  name : String
  ns : String
  finalizers : List String
  fields : List (String × String)
deriving DecidableEq, Repr

/-- `obj.SetFinalizers(fs)`. -/
def Unstructured.setFinalizers (o : Unstructured) (fs : List String) : Unstructured :=
  { o with finalizers := fs }

/-- A JSON merge patch over an `Unstructured`: for each top-level component,
`none` means "not mentioned in the patch" (left untouched); for the payload
fields a list of per-key changes (`some v` sets, `none` deletes). -/
structure MergePatch where
  name? : Option String
  ns? : Option String
  finalizers? : Option (List String)
  fields? : List (String × Option String)
deriving DecidableEq, Repr

/-- Per-key difference of two payload-field maps, as a merge patch would
record it: keys whose value changed or was added, then keys that were
removed. -/
def diffFields (oldFs newFs : List (String × String)) : List (String × Option String) :=
  newFs.filterMap
    (fun kv => if oldFs.lookup kv.1 = some kv.2 then none else some (kv.1, some kv.2)) ++
  oldFs.filterMap
    (fun kv => if newFs.lookup kv.1 = none then some (kv.1, (none : Option String)) else none)

/-- `ctrlruntimeclient.MergeFrom(oldObj)` applied to `newObj`: the merge patch
recording exactly the components on which the two objects differ. -/
def mergeFrom (oldObj newObj : Unstructured) : MergePatch :=
  { name? := if newObj.name = oldObj.name then none else some newObj.name
    ns? := if newObj.ns = oldObj.ns then none else some newObj.ns
    finalizers? := if newObj.finalizers = oldObj.finalizers then none else some newObj.finalizers
    fields? := diffFields oldObj.fields newObj.fields }

/-- Apply the per-key field changes of a merge patch to a field map. -/
def applyFieldPatch : List (String × String) → List (String × Option String) → List (String × String)
  | fs, [] => fs
  | fs, (k, none) :: rest => applyFieldPatch (fs.filter (fun kv => kv.1 ≠ k)) rest
  | fs, (k, some v) :: rest =>
      applyFieldPatch ((fs.filter (fun kv => kv.1 ≠ k)) ++ [(k, v)]) rest

/-- Merge-patch semantics (spec §6): components recorded in the patch are
replaced, unmentioned components are left untouched. -/
def applyMergePatch (o : Unstructured) (p : MergePatch) : Unstructured :=
  { name := p.name?.getD o.name
    ns := p.ns?.getD o.ns
    finalizers := p.finalizers?.getD o.finalizers
    fields := applyFieldPatch o.fields p.fields? }

/-- Error taxonomy of the program: each constructor corresponds to one
`fmt.Errorf` site (or the `NoServedVersion` condition of `getAPIVersion`);
the carried string is the wrapped transport error, and `patchFailed` also
carries the `namespace/name` identifier of the failing resource. -/
inductive NukeError where
  | noServedVersion
  | retrieveCRDFailed (e : String)
  | deleteCRDFailed (e : String)
  | listNamespacesFailed (e : String)
  | listObjectsFailed (e : String)
  | patchFailed (ident : String) (e : String)
  | finalCheckFailed (e : String)
deriving DecidableEq, Repr

/-- One API call issued by the program, as recorded in the call trace. -/
inductive Call where
  | getCRD (name : String)
  | deleteCRD (name : String)
  | listNamespaces
  | listObjects (apiVersion kind : String) (scope : Option String)
  | patch (ident : String) (p : MergePatch)
deriving DecidableEq, Repr

/-- Result of a CRD `Get`: found, not found, or another transport error. -/
inductive GetResult where
  | ok (crd : CustomResourceDefinition)
  | notFound
  | err (e : String)
deriving DecidableEq, Repr

/-- Result of the namespace `List` call. -/
inductive ListNSResult where
  | ok (namespaces : List String)
  | notFound
  | err (e : String)
deriving DecidableEq, Repr

/-- Result of a generic object `List` call. -/
inductive ListObjResult where
  | ok (items : List Unstructured)
  | notFound
  | err (e : String)
deriving DecidableEq, Repr

/-- The cluster API client, as the record of response functions over an
abstract cluster state `σ` (spec §6: get-by-name, delete,
list-with-scope-filter, merge patch).  `deleteCRD` and `patch` return
`none` on success and `some e` on failure. -/
structure Client (σ : Type) where
  getCRD : σ → String → GetResult × σ
  deleteCRD : σ → CustomResourceDefinition → Option String × σ
  listNamespaces : σ → ListNSResult × σ
  listObjects : σ → String → String → Option String → ListObjResult × σ
  patch : σ → Unstructured → MergePatch → Option String × σ

/-- Outcome of a sweep-phase procedure: the returned error (`none` = nil),
the cluster state afterwards, and the API calls issued. -/
structure SweepOutcome (σ : Type) where
  result : Option NukeError
  state : σ
  calls : List Call
deriving DecidableEq, Repr

/-- Outcome of the convergence poll. -/
inductive PollResult where
  | converged
  | interrupted
  | failed (e : String)
deriving DecidableEq, Repr

/-- Outcome of the poll loop: terminal result, state, calls issued. -/
structure PollOutcome (σ : Type) where
  result : PollResult
  state : σ
  calls : List Call
deriving DecidableEq, Repr

/-- Outcome of `nukeCRD`: returned error, state, calls, and warnings logged. -/
structure NukeOutcome (σ : Type) where
  result : Option NukeError
  state : σ
  calls : List Call
  warnings : List String
deriving DecidableEq, Repr

/-- `getAPIVersion`: scan `crd.Spec.Versions` in order and return
`"<group>/<name>"` for the first version with `served = true`; error if no
version is served. -/
def firstServed : List CRDVersion → Option CRDVersion
  | [] => none
  | v :: rest => if v.served then some v else firstServed rest

/-- `getAPIVersion(crd)` from main.go. -/
def getAPIVersion (crd : CustomResourceDefinition) : Except NukeError String :=
  match firstServed crd.spec.versions with
  | some v => .ok (crd.spec.group ++ "/" ++ v.name)
  | none => .error .noServedVersion

/-- The resource identifier used in log and error messages:
`namespace/name` when the namespace is non-empty, bare `name` otherwise. -/
def objIdent (o : Unstructured) : String :=
  if o.ns.length > 0 then o.ns ++ "/" ++ o.name else o.name

/-- The patch the sweep sends for one object: `MergeFrom` of the original
against a copy with finalizers cleared (`SetFinalizers(nil)`). -/
def clearPatch (o : Unstructured) : MergePatch :=
  mergeFrom o (o.setFinalizers [])

/-- The `for _, obj := range objectList.Items` loop of
`removeResourcesWithOpts`: skip objects with no finalizers, otherwise patch
the finalizers away; a patch failure aborts the loop with an error naming
the resource. -/
def patchLoop {σ : Type} (client : Client σ) : σ → List Unstructured → SweepOutcome σ
  | s, [] => ⟨none, s, []⟩
  | s, obj :: rest =>
    if obj.finalizers.length = 0 then
      patchLoop client s rest
    else
      let oldObj := obj
      let newObj := obj.setFinalizers []
      let p := mergeFrom oldObj newObj
      match client.patch s newObj p with
      | (none, s₁) =>
        let out := patchLoop client s₁ rest
        ⟨out.result, out.state, .patch (objIdent obj) p :: out.calls⟩
      | (some e, s₁) => ⟨some (.patchFailed (objIdent obj) e), s₁, [.patch (objIdent obj) p]⟩

/-- `removeResourcesWithOpts`: resolve the API version, list the objects of
that `(apiVersion, kind)` in the given scope (a not-found list error is
tolerated, leaving the item list empty), then run the patch loop. -/
def removeResourcesWithOpts {σ : Type} (client : Client σ) (s : σ)
    (crd : CustomResourceDefinition) (opts : Option String) : SweepOutcome σ :=
  match getAPIVersion crd with
  | .error e => ⟨some e, s, []⟩
  | .ok apiVersion =>
    let kind := crd.spec.names.kind
    match client.listObjects s apiVersion kind opts with
    | (.err e, s₁) => ⟨some (.listObjectsFailed e), s₁, [.listObjects apiVersion kind opts]⟩
    | (.notFound, s₁) =>
      let out := patchLoop client s₁ []
      ⟨out.result, out.state, .listObjects apiVersion kind opts :: out.calls⟩
    | (.ok items, s₁) =>
      let out := patchLoop client s₁ items
      ⟨out.result, out.state, .listObjects apiVersion kind opts :: out.calls⟩

/-- The `for _, namespace := range nsList.Items` loop of `removeResources`:
sweep each namespace in turn, aborting on the first error. -/
def nsLoop {σ : Type} (client : Client σ) (crd : CustomResourceDefinition) :
    σ → List String → SweepOutcome σ
  | s, [] => ⟨none, s, []⟩
  | s, n :: rest =>
    let out := removeResourcesWithOpts client s crd (some n)
    match out.result with
    | some e => ⟨some e, out.state, out.calls⟩
    | none =>
      let out₂ := nsLoop client crd out.state rest
      ⟨out₂.result, out₂.state, out.calls ++ out₂.calls⟩

/-- `removeResources` (current variant): for a NamespaceScoped CRD list the
namespaces (tolerating not-found, which leaves the namespace list empty),
sweep each namespace, and return; for a ClusterScoped CRD do a single
unscoped sweep. -/
def removeResources {σ : Type} (client : Client σ) (s : σ)
    (crd : CustomResourceDefinition) : SweepOutcome σ :=
  if crd.spec.scope = ResourceScope.NamespaceScoped then
    match client.listNamespaces s with
    | (.err e, s₁) => ⟨some (.listNamespacesFailed e), s₁, [.listNamespaces]⟩
    | (.notFound, s₁) =>
      let out := nsLoop client crd s₁ []
      ⟨out.result, out.state, .listNamespaces :: out.calls⟩
    | (.ok nss, s₁) =>
      let out := nsLoop client crd s₁ nss
      ⟨out.result, out.state, .listNamespaces :: out.calls⟩
  else
    removeResourcesWithOpts client s crd none

/-- The poll interval of the convergence wait, in milliseconds
(`100*time.Millisecond`). -/
def pollInterval : Nat := 100

/-- The total timeout of the convergence wait, in milliseconds
(`5*time.Second`). -/
def pollTimeout : Nat := 5000

/-- Number of condition evaluations of
`wait.PollUntilContextTimeout(ctx, 100ms, 5s, true, ...)`: one immediate
tick plus one per interval until the timeout. -/
def pollTicks : Nat := pollTimeout / pollInterval

/-- The poll condition loop: each tick re-fetches the CRD by name; a
successful fetch continues polling, not-found terminates with success, any
other error terminates the poll with that error; running out of ticks is
the context timeout (`wait.Interrupted`). -/
def pollLoop {σ : Type} (client : Client σ) (crdName : String) :
    Nat → σ → PollOutcome σ
  | 0, s => ⟨.interrupted, s, []⟩
  | fuel + 1, s =>
    match client.getCRD s crdName with
    | (.ok _, s₁) =>
      let out := pollLoop client crdName fuel s₁
      ⟨out.result, out.state, .getCRD crdName :: out.calls⟩
    | (.notFound, s₁) => ⟨.converged, s₁, [.getCRD crdName]⟩
    | (.err e, s₁) => ⟨.failed e, s₁, [.getCRD crdName]⟩

/-- The warning logged when the CRD still exists at the end of the poll. -/
def crdStillExistsWarning : String :=
  "CRD still exists, some resources might be blocked by owner references to them."

/-- `nukeCRD`: fetch the CRD (not-found is success, nothing to nuke), delete
it, sweep stuck resources, then poll for its disappearance; a poll timeout
is downgraded to a warning, any other poll error is fatal. -/
def nukeCRD {σ : Type} (client : Client σ) (s : σ) (crdName : String) : NukeOutcome σ :=
  match client.getCRD s crdName with
  | (.notFound, s₁) => ⟨none, s₁, [.getCRD crdName], []⟩
  | (.err e, s₁) => ⟨some (.retrieveCRDFailed e), s₁, [.getCRD crdName], []⟩
  | (.ok crd, s₁) =>
    match client.deleteCRD s₁ crd with
    | (some e, s₂) => ⟨some (.deleteCRDFailed e), s₂, [.getCRD crdName, .deleteCRD crd.name], []⟩
    | (none, s₂) =>
      let sweep := removeResources client s₂ crd
      match sweep.result with
      | some e =>
        ⟨some e, sweep.state, .getCRD crdName :: .deleteCRD crd.name :: sweep.calls, []⟩
      | none =>
        let poll := pollLoop client crdName pollTicks sweep.state
        let calls := .getCRD crdName :: .deleteCRD crd.name :: (sweep.calls ++ poll.calls)
        match poll.result with
        | .converged => ⟨none, poll.state, calls, []⟩
        | .interrupted => ⟨none, poll.state, calls, [crdStillExistsWarning]⟩
        | .failed e => ⟨some (.finalCheckFailed e), poll.state, calls, []⟩

/-- `strings.ToLower`, modelled character-wise (adequate for the ASCII
names handled here). -/
def toLowerStr (s : String) : String :=
  ⟨s.data.map Char.toLower⟩

/-- The target loop of `main`: lowercase each name, nuke it, and record a
failure by setting the `success` flag to `true` (sic — this is exactly what
the source does).  Returns the final state, the flag, and the per-target
results. -/
def runTargets {σ : Type} (client : Client σ) :
    σ → Bool → List String → σ × Bool × List (String × Option NukeError)
  | s, success, [] => (s, success, [])
  | s, success, n :: rest =>
    let crdName := toLowerStr n
    let out := nukeCRD client s crdName
    let success₁ := match out.result with
      | some _ => true
      | none => success
    let (s₂, flag, results) := runTargets client out.state success₁ rest
    (s₂, flag, (crdName, out.result) :: results)

/-- The exit policy of `main`: after the target loop,
`if success { log.Info(...) } else { os.Exit(1) }` — falling off `main`
exits 0, the else branch exits 1. -/
def mainExitCode {σ : Type} (client : Client σ) (s : σ) (names : List String) : Nat :=
  let (_, success, _) := runTargets client s false names
  if success then 0 else 1

/-! ## Call-trace observers -/

/-- The scope arguments of the object list calls in a trace, in order. -/
def listObjScopes (cs : List Call) : List (Option String) :=
  cs.filterMap (fun c => match c with
    | .listObjects _ _ o => some o
    | _ => none)

/-- The number of namespace list calls in a trace. -/
def nsListCount (cs : List Call) : Nat :=
  (cs.filter (fun c => match c with
    | .listNamespaces => true
    | _ => false)).length

/-- The patch calls in a trace, in order, as (identifier, patch) pairs. -/
def patchTrace (cs : List Call) : List (String × MergePatch) :=
  cs.filterMap (fun c => match c with
    | .patch i p => some (i, p)
    | _ => none)

/-- The delete calls in a trace. -/
def deleteCount (cs : List Call) : Nat :=
  (cs.filter (fun c => match c with
    | .deleteCRD _ => true
    | _ => false)).length

/-! ## A concrete cluster semantics

For the idempotence claim the client is instantiated with a deterministic
cluster state whose only mutations are the tool's own calls (the claim's
premise): get/list read the state, delete removes the CRD, patch applies
the merge patch to the stored object. -/

/-- An object stored in the cluster, addressed by `(apiVersion, kind)`. -/
structure StoredObject where
  apiVersion : String
  kind : String
  obj : Unstructured
deriving DecidableEq, Repr

/-- A cluster state: registered CRDs, existing namespaces, stored objects. -/
structure ClusterState where
  crds : List CustomResourceDefinition
  namespaces : List String
  objects : List StoredObject
deriving DecidableEq, Repr

/-- Does an object fall into a list scope (`none` = unscoped)? -/
def matchesScope (scope : Option String) (o : Unstructured) : Bool :=
  match scope with
  | none => true
  | some n => o.ns == n

/-- The deterministic cluster client over `ClusterState`. -/
def clusterClient : Client ClusterState where
  getCRD := fun s name =>
    match s.crds.find? (fun c => c.name == name) with
    | some crd => (.ok crd, s)
    | none => (.notFound, s)
  deleteCRD := fun s crd =>
    (none, { s with crds := s.crds.filter (fun c => !(c.name == crd.name)) })
  listNamespaces := fun s => (.ok s.namespaces, s)
  listObjects := fun s apiVersion kind scope =>
    (.ok ((s.objects.filter (fun so =>
      so.apiVersion == apiVersion && so.kind == kind && matchesScope scope so.obj)).map
        (fun so => so.obj)), s)
  patch := fun s o p =>
    (none, { s with objects := s.objects.map (fun so =>
      if so.obj.name == o.name && so.obj.ns == o.ns then
        { so with obj := applyMergePatch so.obj p }
      else so) })

/-! ## Concrete inputs for witnesses and counterexamples -/

/-- A namespace-scoped CRD with one served version. -/
def crdNS : CustomResourceDefinition :=
  ⟨"widgets.example.com",
   ⟨.NamespaceScoped, "example.com", [⟨"v1", true⟩], ⟨"Widget"⟩⟩⟩

/-- A cluster-scoped CRD with one served version. -/
def crdCS : CustomResourceDefinition :=
  ⟨"gadgets.example.com",
   ⟨.ClusterScoped, "example.com", [⟨"v1", true⟩], ⟨"Gadget"⟩⟩⟩

/-- A namespace-scoped CRD none of whose versions is served. -/
def crdUnserved : CustomResourceDefinition :=
  ⟨"relics.example.com",
   ⟨.NamespaceScoped, "example.com", [⟨"v1alpha1", false⟩], ⟨"Relic"⟩⟩⟩

/-- A cluster-scoped CRD none of whose versions is served. -/
def crdUnservedCS : CustomResourceDefinition :=
  ⟨"shards.example.com",
   ⟨.ClusterScoped, "example.com", [⟨"v1alpha1", false⟩], ⟨"Shard"⟩⟩⟩

/-- The spec's served-version selection example:
`[{v1alpha1, served:false}, {v1beta1, served:true}, {v1, served:true}]`. -/
def crdMultiVersion : CustomResourceDefinition :=
  ⟨"things.example.com",
   ⟨.ClusterScoped, "example.com",
    [⟨"v1alpha1", false⟩, ⟨"v1beta1", true⟩, ⟨"v1", true⟩], ⟨"Thing"⟩⟩⟩

/-- An instance with one finalizer and an extra payload field. -/
def objStuck : Unstructured :=
  ⟨"stuck", "ns1", ["a.b/finalizer"], [("spec", "x")]⟩

/-- An instance with no finalizers. -/
def objClean : Unstructured :=
  ⟨"clean", "", [], [("spec", "y")]⟩

/-- A client for the exit-code run: nuking "bad" fails at the CRD fetch,
every other name does not exist (nuke succeeds as a no-op). -/
def clientExit : Client Unit where
  getCRD := fun s name => (if name == "bad" then .err "boom" else .notFound, s)
  deleteCRD := fun s _ => (none, s)
  listNamespaces := fun s => (.ok [], s)
  listObjects := fun s _ _ _ => (.ok [], s)
  patch := fun s _ _ => (none, s)

/-- A benign client with two namespaces and no stored objects. -/
def clientTwoNS : Client Unit where
  getCRD := fun s _ => (.notFound, s)
  deleteCRD := fun s _ => (none, s)
  listNamespaces := fun s => (.ok ["ns1", "ns2"], s)
  listObjects := fun s _ _ _ => (.ok [], s)
  patch := fun s _ _ => (none, s)

/-- A client whose list calls both return not-found. -/
def clientGone : Client Unit where
  getCRD := fun s _ => (.notFound, s)
  deleteCRD := fun s _ => (none, s)
  listNamespaces := fun s => (.notFound, s)
  listObjects := fun s _ _ _ => (.notFound, s)
  patch := fun s _ _ => (none, s)

/-- A client with one namespace; used to show a namespace list call is
issued before API version resolution. -/
def clientOneNS : Client Unit where
  getCRD := fun s _ => (.notFound, s)
  deleteCRD := fun s _ => (none, s)
  listNamespaces := fun s => (.ok ["ns1"], s)
  listObjects := fun s _ _ _ => (.ok [], s)
  patch := fun s _ _ => (none, s)

/-- A client with zero namespaces. -/
def clientZeroNS : Client Unit where
  getCRD := fun s _ => (.notFound, s)
  deleteCRD := fun s _ => (none, s)
  listNamespaces := fun s => (.ok [], s)
  listObjects := fun s _ _ _ => (.ok [], s)
  patch := fun s _ _ => (none, s)

/-- A client whose object list returns one stuck and one clean instance and
whose patches always succeed. -/
def clientSweep : Client Unit where
  getCRD := fun s _ => (.notFound, s)
  deleteCRD := fun s _ => (none, s)
  listNamespaces := fun s => (.ok ["ns1"], s)
  listObjects := fun s _ _ _ => (.ok [objClean, objStuck], s)
  patch := fun s _ _ => (none, s)

/-- A client that refuses the patch on the instance named "stuck". -/
def clientDenyPatch : Client Unit where
  getCRD := fun s _ => (.notFound, s)
  deleteCRD := fun s _ => (none, s)
  listNamespaces := fun s => (.ok ["ns1"], s)
  listObjects := fun s _ _ _ => (.ok [objClean, objStuck, objClean], s)
  patch := fun s o _ => (if o.name == "stuck" then some "denied" else none, s)

/-- A client for which the CRD named "things.example.com" always exists:
the convergence poll never sees not-found. -/
def clientPersistent : Client Unit where
  getCRD := fun s name =>
    (if name == "things.example.com" then .ok crdMultiVersion else .notFound, s)
  deleteCRD := fun s _ => (none, s)
  listNamespaces := fun s => (.ok [], s)
  listObjects := fun s _ _ _ => (.ok [], s)
  patch := fun s _ _ => (none, s)

/-- A cluster holding one namespace-scoped CRD with one stuck instance. -/
def clusterW : ClusterState :=
  ⟨[crdNS], ["ns1"], [⟨"example.com/v1", "Widget", objStuck⟩]⟩

/-! ## Helper lemmas -/

/-- A string has positive length iff it is not the empty string. -/
theorem string_length_pos_iff (s : String) : 0 < s.length ↔ s ≠ "" := by
  cases s with
  | mk data =>
    simp [String.length, String.ext_iff]
    exact List.length_pos

/-- The identifier format: bare name without a namespace, `namespace/name`
with one. -/
theorem objIdent_format (o : Unstructured) :
    (o.ns = "" → objIdent o = o.name) ∧ (o.ns ≠ "" → objIdent o = o.ns ++ "/" ++ o.name) := by
  constructor
  · intro h
    have : ¬ 0 < o.ns.length := by
      rw [string_length_pos_iff]
      simp [h]
    simp [objIdent, this]
  · intro h
    have : 0 < o.ns.length := (string_length_pos_iff o.ns).mpr h
    simp [objIdent, this]

/-- In a duplicate-free field map, looking up the key of a member finds its
value. -/
theorem lookup_self_of_nodup {β : Type} :
    ∀ (l : List (String × β)), (l.map Prod.fst).Nodup →
      ∀ kv ∈ l, l.lookup kv.1 = some kv.2 := by
  intro l
  induction l with
  | nil => simp
  | cons hd tl ih =>
    intro hnd kv hkv
    rw [List.map_cons, List.nodup_cons] at hnd
    rcases List.mem_cons.mp hkv with rfl | hmem
    · simp [List.lookup]
    · have hne : (kv.1 == hd.1) = false := by
        apply beq_eq_false_iff_ne.mpr
        intro he
        exact hnd.1 (he ▸ List.mem_map_of_mem Prod.fst hmem)
      simp [List.lookup, hne]
      exact ih hnd.2 kv hmem

/-- Looking up the key of a member never fails. -/
theorem lookup_mem_isSome {β : Type} :
    ∀ (l : List (String × β)) (kv : String × β), kv ∈ l → l.lookup kv.1 ≠ none := by
  intro l
  induction l with
  | nil => simp
  | cons hd tl ih =>
    intro kv hkv
    rcases List.mem_cons.mp hkv with rfl | hmem
    · simp [List.lookup]
    · by_cases hb : (kv.1 == hd.1) = true
      · simp [List.lookup, hb]
      · rw [Bool.not_eq_true] at hb
        simp only [List.lookup, hb]
        exact ih kv hmem

/-- The merge diff of a duplicate-free field map against itself is empty. -/
theorem diffFields_self (fs : List (String × String))
    (h : (fs.map Prod.fst).Nodup) : diffFields fs fs = [] := by
  unfold diffFields
  rw [List.append_eq_nil]
  constructor
  · rw [List.filterMap_eq_nil_iff]
    intro kv hkv
    simp [lookup_self_of_nodup fs h kv hkv]
  · rw [List.filterMap_eq_nil_iff]
    intro kv hkv
    simp [lookup_mem_isSome fs kv hkv]

/-- The patch the sweep builds for a stuck object mentions only the
finalizers component (clearing it) and, applied to the original object,
yields the object with finalizers cleared and nothing else changed. -/
theorem clearPatch_surgical (o : Unstructured) (hfin : o.finalizers ≠ [])
    (hkeys : (o.fields.map Prod.fst).Nodup) :
    (clearPatch o).name? = none ∧ (clearPatch o).ns? = none ∧
    (clearPatch o).finalizers? = some [] ∧ (clearPatch o).fields? = [] ∧
    applyMergePatch o (clearPatch o) = o.setFinalizers [] := by
  have hne : ¬ ([] : List String) = o.finalizers := fun h => hfin h.symm
  have hp : clearPatch o = ⟨none, none, some [], []⟩ := by
    simp [clearPatch, mergeFrom, Unstructured.setFinalizers, hne, diffFields_self _ hkeys]
  refine ⟨by rw [hp], by rw [hp], by rw [hp], by rw [hp], ?_⟩
  rw [hp]
  simp [applyMergePatch, applyFieldPatch, Unstructured.setFinalizers]

/-- Every call the patch loop issues is a patch call. -/
theorem patchLoop_calls_patches {σ : Type} (client : Client σ) :
    ∀ (objs : List Unstructured) (s : σ),
      ∀ c ∈ (patchLoop client s objs).calls, ∃ i p, c = Call.patch i p := by
  intro objs
  induction objs with
  | nil =>
    intro s c hc
    simp [patchLoop] at hc
  | cons obj rest ih =>
    intro s c hc
    by_cases hfin : obj.finalizers.length = 0
    · rw [patchLoop, if_pos hfin] at hc
      exact ih s c hc
    · rw [patchLoop, if_neg hfin] at hc
      rcases hp : client.patch s (obj.setFinalizers []) (mergeFrom obj (obj.setFinalizers [])) with
        ⟨r, s₁⟩
      cases r with
      | none =>
        simp only [hp, List.mem_cons] at hc
        rcases hc with rfl | hc
        · exact ⟨_, _, rfl⟩
        · exact ih s₁ c hc
      | some e =>
        simp only [hp, List.mem_singleton] at hc
        exact ⟨_, _, hc⟩

/-- A trace of patch calls only contains no object list call. -/
theorem listObjScopes_of_patches (cs : List Call)
    (h : ∀ c ∈ cs, ∃ i p, c = Call.patch i p) : listObjScopes cs = [] := by
  rw [listObjScopes, List.filterMap_eq_nil_iff]
  intro c hc
  obtain ⟨i, p, rfl⟩ := h c hc
  rfl

/-- A trace of patch calls only contains no namespace list call. -/
theorem nsListCount_of_patches (cs : List Call)
    (h : ∀ c ∈ cs, ∃ i p, c = Call.patch i p) : nsListCount cs = 0 := by
  rw [nsListCount, List.length_eq_zero, List.filter_eq_nil_iff]
  intro c hc
  obtain ⟨i, p, rfl⟩ := h c hc
  simp

/-- When every patch succeeds, the patch loop succeeds and its patch calls
are exactly one clearing patch per listed instance with a non-empty
finalizer list, in order; instances with empty finalizer lists produce no
patch call. -/
theorem patchLoop_ok_trace {σ : Type} (client : Client σ)
    (hpatch : ∀ (t : σ) (o : Unstructured) (p : MergePatch), (client.patch t o p).1 = none) :
    ∀ (objs : List Unstructured) (s : σ),
      (patchLoop client s objs).result = none ∧
      patchTrace (patchLoop client s objs).calls =
        (objs.filter (fun o => !(o.finalizers.length == 0))).map
          (fun o => (objIdent o, clearPatch o)) := by
  intro objs
  induction objs with
  | nil =>
    intro s
    simp [patchLoop, patchTrace]
  | cons obj rest ih =>
    intro s
    by_cases hfin : obj.finalizers.length = 0
    · rw [patchLoop, if_pos hfin]
      have hf : (!(obj.finalizers.length == 0)) = false := by simp [hfin]
      rw [List.filter_cons, hf]
      simpa using ih s
    · rw [patchLoop, if_neg hfin]
      rcases hp : client.patch s (obj.setFinalizers []) (mergeFrom obj (obj.setFinalizers []))
        with ⟨r, s₁⟩
      have hr := hpatch s (obj.setFinalizers []) (mergeFrom obj (obj.setFinalizers []))
      rw [hp] at hr
      cases r with
      | some e => simp at hr
      | none =>
        have hf : (!(obj.finalizers.length == 0)) = true := by simp [hfin]
        simp only [hp, List.filter_cons, hf, if_true]
        obtain ⟨ih1, ih2⟩ := ih s₁
        refine ⟨ih1, ?_⟩
        simp only [patchTrace, List.filterMap_cons, List.map_cons]
        rw [patchTrace] at ih2
        rw [ih2]
        rfl

/-- A patch failure aborts the patch loop at the failing instance: the
outcome over the full item list equals the outcome with every later item
dropped, and the error names the failing instance by its identifier. -/
theorem patchLoop_err_stops {σ : Type} (client : Client σ) :
    ∀ (objs : List Unstructured) (s : σ) (i e),
      (patchLoop client s objs).result = some (.patchFailed i e) →
      ∃ pre bad post, objs = pre ++ bad :: post ∧
        ¬ bad.finalizers.length = 0 ∧ i = objIdent bad ∧
        patchLoop client s objs = patchLoop client s (pre ++ [bad]) := by
  intro objs
  induction objs with
  | nil =>
    intro s i e h
    simp [patchLoop] at h
  | cons obj rest ih =>
    intro s i e h
    by_cases hfin : obj.finalizers.length = 0
    · rw [patchLoop, if_pos hfin] at h
      obtain ⟨pre, bad, post, hsplit, hbad, hident, heq⟩ := ih s i e h
      refine ⟨obj :: pre, bad, post, by rw [hsplit, List.cons_append], hbad, hident, ?_⟩
      rw [List.cons_append, patchLoop, if_pos hfin, patchLoop, if_pos hfin]
      exact heq
    · rw [patchLoop, if_neg hfin] at h
      rcases hp : client.patch s (obj.setFinalizers []) (mergeFrom obj (obj.setFinalizers []))
        with ⟨r, s₁⟩
      cases r with
      | none =>
        simp only [hp] at h
        obtain ⟨pre, bad, post, hsplit, hbad, hident, heq⟩ := ih s₁ i e h
        refine ⟨obj :: pre, bad, post, by rw [hsplit, List.cons_append], hbad, hident, ?_⟩
        rw [List.cons_append, patchLoop, if_neg hfin, patchLoop, if_neg hfin]
        simp only [hp, heq]
      | some e₁ =>
        simp only [hp] at h
        have hi : NukeError.patchFailed (objIdent obj) e₁ = .patchFailed i e := by
          simpa using h
        refine ⟨[], obj, rest, rfl, hfin, ?_, ?_⟩
        · cases hi
          rfl
        · rw [List.nil_append, patchLoop, if_neg hfin, patchLoop, if_neg hfin]
          simp only [hp]

/-- An object list call at the head of a trace contributes its scope. -/
theorem listObjScopes_cons_listObjects (av kind : String) (o : Option String)
    (cs : List Call) :
    listObjScopes (Call.listObjects av kind o :: cs) = o :: listObjScopes cs := rfl

/-- An object list call at the head of a trace is not a namespace list. -/
theorem nsListCount_cons_listObjects (av kind : String) (o : Option String)
    (cs : List Call) :
    nsListCount (Call.listObjects av kind o :: cs) = nsListCount cs := rfl

/-- A successful per-scope sweep resolved the API version, issued exactly
one object list call (for its own scope), and issued no namespace list
call. -/
theorem removeResourcesWithOpts_ok_calls {σ : Type} (client : Client σ) (s : σ)
    (crd : CustomResourceDefinition) (opts : Option String)
    (hok : (removeResourcesWithOpts client s crd opts).result = none) :
    ∃ av, getAPIVersion crd = .ok av ∧
      listObjScopes (removeResourcesWithOpts client s crd opts).calls = [opts] ∧
      nsListCount (removeResourcesWithOpts client s crd opts).calls = 0 := by
  rcases hv : getAPIVersion crd with e | av
  · rw [removeResourcesWithOpts, hv] at hok
    simp at hok
  · refine ⟨av, rfl, ?_⟩
    rw [removeResourcesWithOpts, hv] at hok ⊢
    rcases hl : client.listObjects s av crd.spec.names.kind opts with ⟨r, s₁⟩
    cases r with
    | err e =>
      simp only [hl] at hok
      simp at hok
    | notFound =>
      simp only [hl]
      simp [listObjScopes, nsListCount, patchLoop]
    | ok items =>
      simp only [hl] at hok ⊢
      have hall := patchLoop_calls_patches client items s₁
      constructor
      · show listObjScopes
          (Call.listObjects av crd.spec.names.kind opts :: (patchLoop client s₁ items).calls)
          = [opts]
        rw [listObjScopes_cons_listObjects, listObjScopes_of_patches _ hall]
      · show nsListCount
          (Call.listObjects av crd.spec.names.kind opts :: (patchLoop client s₁ items).calls)
          = 0
        rw [nsListCount_cons_listObjects, nsListCount_of_patches _ hall]

/-- A successful namespace loop issues exactly one object list call per
namespace, scoped to that namespace and in order, and no namespace list
call. -/
theorem nsLoop_ok_calls {σ : Type} (client : Client σ) (crd : CustomResourceDefinition) :
    ∀ (nss : List String) (s : σ), (nsLoop client crd s nss).result = none →
      listObjScopes (nsLoop client crd s nss).calls = nss.map some ∧
      nsListCount (nsLoop client crd s nss).calls = 0 := by
  intro nss
  induction nss with
  | nil =>
    intro s _
    simp [nsLoop, listObjScopes, nsListCount]
  | cons n rest ih =>
    intro s hok
    rw [nsLoop] at hok ⊢
    rcases hout : (removeResourcesWithOpts client s crd (some n)).result with _ | e
    · simp only [hout] at hok ⊢
      obtain ⟨av, _, hscopes, hcount⟩ := removeResourcesWithOpts_ok_calls client s crd (some n) hout
      obtain ⟨ih1, ih2⟩ :=
        ih (removeResourcesWithOpts client s crd (some n)).state hok
      constructor
      · rw [listObjScopes, List.filterMap_append]
        rw [listObjScopes] at hscopes ih1
        rw [hscopes, ih1, List.map_cons]
        rfl
      · rw [nsListCount, List.filter_append, List.length_append]
        rw [nsListCount] at hcount ih2
        rw [hcount, ih2]
    · simp only [hout] at hok
      simp at hok

/-- An erroring namespace loop stops at the failing namespace: its outcome
equals the outcome with all later namespaces dropped. -/
theorem nsLoop_err_stops {σ : Type} (client : Client σ) (crd : CustomResourceDefinition) :
    ∀ (nss : List String) (s : σ) (e : NukeError),
      (nsLoop client crd s nss).result = some e →
      ∃ preNs bad postNs, nss = preNs ++ bad :: postNs ∧
        nsLoop client crd s nss = nsLoop client crd s (preNs ++ [bad]) := by
  intro nss
  induction nss with
  | nil =>
    intro s e h
    simp [nsLoop] at h
  | cons n rest ih =>
    intro s e h
    rw [nsLoop] at h
    rcases hout : (removeResourcesWithOpts client s crd (some n)).result with _ | e₁
    · simp only [hout] at h
      obtain ⟨preNs, bad, postNs, hsplit, heq⟩ :=
        ih (removeResourcesWithOpts client s crd (some n)).state e h
      refine ⟨n :: preNs, bad, postNs, by rw [hsplit, List.cons_append], ?_⟩
      rw [List.cons_append, nsLoop, nsLoop]
      simp only [hout, heq]
    · refine ⟨[], n, rest, rfl, ?_⟩
      rw [List.nil_append, nsLoop, nsLoop]
      simp only [hout]

/-- Every call the poll loop issues is a fetch of the CRD by name, and it
issues at most one fetch per tick. -/
theorem pollLoop_calls_bound {σ : Type} (client : Client σ) (crdName : String) :
    ∀ (fuel : Nat) (s : σ),
      (∀ c ∈ (pollLoop client crdName fuel s).calls, c = Call.getCRD crdName) ∧
      (pollLoop client crdName fuel s).calls.length ≤ fuel := by
  intro fuel
  induction fuel with
  | zero =>
    intro s
    simp [pollLoop]
  | succ n ih =>
    intro s
    rw [pollLoop]
    rcases hg : client.getCRD s crdName with ⟨r, s₁⟩
    cases r with
    | ok crd =>
      simp only [hg]
      constructor
      · intro c hc
        rcases List.mem_cons.mp hc with rfl | hc
        · rfl
        · exact (ih s₁).1 c hc
      · simpa using Nat.succ_le_succ (ih s₁).2
    | notFound =>
      simp only [hg]
      exact ⟨by simp, by simp⟩
    | err e =>
      simp only [hg]
      exact ⟨by simp, by simp⟩

/-- A not-found fetch terminates the poll at once, with success. -/
theorem pollLoop_notFound_step {σ : Type} (client : Client σ) (crdName : String)
    (fuel : Nat) (s s₁ : σ) (h : client.getCRD s crdName = (.notFound, s₁)) :
    pollLoop client crdName (fuel + 1) s = ⟨.converged, s₁, [.getCRD crdName]⟩ := by
  rw [pollLoop]
  simp [h]

/-- If every fetch keeps finding the CRD, the poll runs out of ticks and is
interrupted (the timeout case). -/
theorem pollLoop_allFound {σ : Type} (client : Client σ) (crdName : String)
    (hall : ∀ t : σ, ∃ c t₁, client.getCRD t crdName = (.ok c, t₁)) :
    ∀ (fuel : Nat) (s : σ), (pollLoop client crdName fuel s).result = .interrupted := by
  intro fuel
  induction fuel with
  | zero =>
    intro s
    rfl
  | succ n ih =>
    intro s
    obtain ⟨c, t₁, hg⟩ := hall s
    rw [pollLoop]
    simp only [hg]
    exact ih t₁

/-- A per-scope sweep that fails with a patch error got a successful object
list, and the failure names one listed instance; the patch loop's outcome
equals the outcome with every instance after the failing one dropped. -/
theorem removeResourcesWithOpts_patchFailed {σ : Type} (client : Client σ) (s : σ)
    (crd : CustomResourceDefinition) (opts : Option String) (i e : String)
    (h : (removeResourcesWithOpts client s crd opts).result = some (.patchFailed i e)) :
    ∃ av items s₁ pre bad post,
      getAPIVersion crd = .ok av ∧
      client.listObjects s av crd.spec.names.kind opts = (.ok items, s₁) ∧
      items = pre ++ bad :: post ∧
      ¬ bad.finalizers.length = 0 ∧
      i = objIdent bad ∧
      patchLoop client s₁ items = patchLoop client s₁ (pre ++ [bad]) := by
  rcases hfs : firstServed crd.spec.versions with _ | v
  · have hv : getAPIVersion crd = .error .noServedVersion := by
      rw [getAPIVersion, hfs]
    rw [removeResourcesWithOpts, hv] at h
    simp at h
  · have hv : getAPIVersion crd = .ok (crd.spec.group ++ "/" ++ v.name) := by
      rw [getAPIVersion, hfs]
    rw [removeResourcesWithOpts, hv] at h
    rcases hl : client.listObjects s (crd.spec.group ++ "/" ++ v.name) crd.spec.names.kind opts
      with ⟨r, s₁⟩
    cases r with
    | err e₀ =>
      simp only [hl] at h
      simp at h
    | notFound =>
      simp only [hl] at h
      simp [patchLoop] at h
    | ok items =>
      simp only [hl] at h
      obtain ⟨pre, bad, post, hsplit, hbad, hident, heq⟩ :=
        patchLoop_err_stops client items s₁ i e h
      exact ⟨_, items, s₁, pre, bad, post, hv, hl, hsplit, hbad, hident, heq⟩

/-- The cluster fetch does not change the cluster state. -/
theorem clusterClient_getCRD_state (s : ClusterState) (name : String) :
    (clusterClient.getCRD s name).2 = s := by
  cases h : s.crds.find? (fun c => c.name == name) <;> simp [clusterClient, h]

/-- Patching never registers or removes CRDs. -/
theorem patchLoop_cluster_crds :
    ∀ (objs : List Unstructured) (s : ClusterState),
      ((patchLoop clusterClient s objs).state).crds = s.crds := by
  intro objs
  induction objs with
  | nil =>
    intro s
    rfl
  | cons obj rest ih =>
    intro s
    by_cases hfin : obj.finalizers.length = 0
    · rw [patchLoop, if_pos hfin]
      exact ih s
    · rw [patchLoop, if_neg hfin]
      exact ih _

/-- A per-scope sweep never registers or removes CRDs. -/
theorem removeResourcesWithOpts_cluster_crds (s : ClusterState)
    (crd : CustomResourceDefinition) (opts : Option String) :
    ((removeResourcesWithOpts clusterClient s crd opts).state).crds = s.crds := by
  rcases hv : getAPIVersion crd with e | av
  · rw [removeResourcesWithOpts, hv]
  · rw [removeResourcesWithOpts, hv]
    exact patchLoop_cluster_crds _ s

/-- The namespace loop never registers or removes CRDs. -/
theorem nsLoop_cluster_crds (crd : CustomResourceDefinition) :
    ∀ (nss : List String) (s : ClusterState),
      ((nsLoop clusterClient crd s nss).state).crds = s.crds := by
  intro nss
  induction nss with
  | nil =>
    intro s
    rfl
  | cons n rest ih =>
    intro s
    rw [nsLoop]
    rcases hout : (removeResourcesWithOpts clusterClient s crd (some n)).result with _ | e
    · simp only [hout]
      exact (ih _).trans (removeResourcesWithOpts_cluster_crds s crd (some n))
    · simp only [hout]
      exact removeResourcesWithOpts_cluster_crds s crd (some n)

/-- The sweep never registers or removes CRDs. -/
theorem removeResources_cluster_crds (s : ClusterState)
    (crd : CustomResourceDefinition) :
    ((removeResources clusterClient s crd).state).crds = s.crds := by
  rw [removeResources]
  by_cases hscope : crd.spec.scope = ResourceScope.NamespaceScoped
  · rw [if_pos hscope]
    exact nsLoop_cluster_crds crd s.namespaces s
  · rw [if_neg hscope]
    exact removeResourcesWithOpts_cluster_crds s crd none

/-- The poll leaves the cluster state untouched. -/
theorem pollLoop_cluster_state (crdName : String) :
    ∀ (fuel : Nat) (s : ClusterState),
      (pollLoop clusterClient crdName fuel s).state = s := by
  intro fuel
  induction fuel with
  | zero =>
    intro s
    rfl
  | succ n ih =>
    intro s
    rcases hg : clusterClient.getCRD s crdName with ⟨r, s₁⟩
    have hs : s₁ = s := by
      have h := clusterClient_getCRD_state s crdName
      rw [hg] at h
      exact h
    subst hs
    rw [pollLoop]
    cases r with
    | ok crd =>
      simp only [hg]
      exact ih s₁
    | notFound =>
      simp [hg]
    | err e =>
      simp [hg]

/-- After deletion, no CRD matching the target name remains in the store:
the filter removes every match and no later phase re-adds one. -/
theorem filter_find_none (l : List CustomResourceDefinition) (crd : CustomResourceDefinition)
    (crdName : String) (hname : crd.name = crdName) :
    (l.filter (fun c => !(c.name == crd.name))).find? (fun c => c.name == crdName) = none := by
  rw [List.find?_eq_none]
  intro x hx
  have hxne := (List.mem_filter.mp hx).2
  rw [hname] at hxne
  simpa using hxne

/-- After any run of `nukeCRD` against the deterministic cluster, the CRD of
that name is no longer registered: either it was absent from the start, or
the delete phase removed it and no later phase re-added it. -/
theorem nukeCRD_cluster_gone (st : ClusterState) (crdName : String) :
    ((nukeCRD clusterClient st crdName).state).crds.find? (fun c => c.name == crdName)
      = none := by
  rcases hfind : st.crds.find? (fun c => c.name == crdName) with _ | crd
  · have hg : clusterClient.getCRD st crdName = (.notFound, st) := by
      simp [clusterClient, hfind]
    rw [nukeCRD]
    simp only [hg]
    exact hfind
  · have hg : clusterClient.getCRD st crdName = (.ok crd, st) := by
      simp [clusterClient, hfind]
    have hname : crd.name = crdName := by
      have hpred := List.find?_some hfind
      exact beq_iff_eq.mp hpred
    have hdel : clusterClient.deleteCRD st crd =
        (none, ⟨st.crds.filter (fun c => !(c.name == crd.name)), st.namespaces, st.objects⟩) :=
      rfl
    have hnone := filter_find_none st.crds crd crdName hname
    rw [nukeCRD]
    simp only [hg, hdel]
    rcases hsw : (removeResources clusterClient
        ⟨st.crds.filter (fun c => !(c.name == crd.name)), st.namespaces, st.objects⟩ crd).result
      with _ | e
    · simp only [hsw]
      rcases hpr : (pollLoop clusterClient crdName pollTicks
          (removeResources clusterClient
            ⟨st.crds.filter (fun c => !(c.name == crd.name)), st.namespaces, st.objects⟩
            crd).state).result with _ | _ | e₁ <;>
        simp only [hpr] <;>
        rw [pollLoop_cluster_state, removeResources_cluster_crds] <;>
        exact hnone
    · simp only [hsw]
      rw [removeResources_cluster_crds]
      exact hnone

/-- Nuking a name that is not registered is a pure no-op against the
deterministic cluster: success, state unchanged, a single fetch call. -/
theorem nukeCRD_cluster_absent (st : ClusterState) (crdName : String)
    (h : st.crds.find? (fun c => c.name == crdName) = none) :
    nukeCRD clusterClient st crdName = ⟨none, st, [.getCRD crdName], []⟩ := by
  have hg : clusterClient.getCRD st crdName = (.notFound, st) := by
    simp [clusterClient, h]
  rw [nukeCRD]
  simp only [hg]

/-! ## Claim theorems -/

/-- C8: For every CRD name for which the initial fetch returns not-found,
`nukeCRD` returns success (nil error) and issues no delete call, no list
call, and no patch call — the trace is the single fetch. -/
theorem claim_C8 {σ : Type} (client : Client σ) (s s₁ : σ) (crdName : String)
    (hget : client.getCRD s crdName = (.notFound, s₁)) :
    nukeCRD client s crdName = ⟨none, s₁, [.getCRD crdName], []⟩ ∧
    deleteCount (nukeCRD client s crdName).calls = 0 ∧
    listObjScopes (nukeCRD client s crdName).calls = [] ∧
    nsListCount (nukeCRD client s crdName).calls = 0 ∧
    patchTrace (nukeCRD client s crdName).calls = [] := by
  have h : nukeCRD client s crdName = ⟨none, s₁, [.getCRD crdName], []⟩ := by
    rw [nukeCRD]
    simp only [hget]
  refine ⟨h, ?_, ?_, ?_, ?_⟩ <;> rw [h] <;> rfl

/-- Witness for C8: nuking a name that never existed. -/
theorem claim_C8_witness :
    nukeCRD clientZeroNS () "ghosts.example.com" =
      ⟨none, (), [.getCRD "ghosts.example.com"], []⟩ :=
  (claim_C8 clientZeroNS () () "ghosts.example.com" rfl).1

/-- C10: in the current variant, a NamespaceScoped CRD whose namespace list
returns zero namespaces makes the sweep return success immediately after
the namespace list call: the API version is never resolved, and no object
list or patch call is issued — so even a CRD with no served version raises
no NoServedVersion error here. -/
theorem claim_C10 {σ : Type} (client : Client σ) (s s₁ : σ)
    (crd : CustomResourceDefinition)
    (hscope : crd.spec.scope = ResourceScope.NamespaceScoped)
    (hns : client.listNamespaces s = (.ok [], s₁)) :
    removeResources client s crd = ⟨none, s₁, [.listNamespaces]⟩ ∧
    listObjScopes (removeResources client s crd).calls = [] ∧
    patchTrace (removeResources client s crd).calls = [] := by
  have h : removeResources client s crd = ⟨none, s₁, [.listNamespaces]⟩ := by
    rw [removeResources, if_pos hscope]
    simp only [hns, nsLoop]
  refine ⟨h, ?_, ?_⟩ <;> rw [h] <;> rfl

/-- Witness for C10: a namespace-scoped CRD with no served version at all
still sweeps successfully when there are zero namespaces. -/
theorem claim_C10_witness :
    getAPIVersion crdUnserved = .error .noServedVersion ∧
    removeResources clientZeroNS () crdUnserved = ⟨none, (), [.listNamespaces]⟩ :=
  ⟨rfl, (claim_C10 clientZeroNS () () crdUnserved rfl rfl).1⟩

/-- C3: a not-found error from a list call is tolerated as "nothing to
sweep": a not-found namespace list makes the sweep return success after
that one call, and a not-found object list makes the per-scope sweep return
success after that one call — the same tolerance at both list sites. -/
theorem claim_C3 {σ : Type} (client : Client σ) (s s₁ s₂ : σ)
    (crd : CustomResourceDefinition) (opts : Option String) (av : String)
    (hscope : crd.spec.scope = ResourceScope.NamespaceScoped)
    (hns : client.listNamespaces s = (.notFound, s₁))
    (hav : getAPIVersion crd = .ok av)
    (hobj : client.listObjects s av crd.spec.names.kind opts = (.notFound, s₂)) :
    removeResources client s crd = ⟨none, s₁, [.listNamespaces]⟩ ∧
    removeResourcesWithOpts client s crd opts =
      ⟨none, s₂, [.listObjects av crd.spec.names.kind opts]⟩ := by
  constructor
  · rw [removeResources, if_pos hscope]
    simp only [hns, nsLoop]
  · rw [removeResourcesWithOpts, hav]
    simp only [hobj, patchLoop]

/-- Witness for C3: both list calls come back not-found, and both are
tolerated. -/
theorem claim_C3_witness :
    removeResources clientGone () crdNS = ⟨none, (), [.listNamespaces]⟩ ∧
    removeResourcesWithOpts clientGone () crdNS (some "ns1") =
      ⟨none, (), [.listObjects "example.com/v1" "Widget" (some "ns1")]⟩ :=
  claim_C3 clientGone () () () crdNS (some "ns1") "example.com/v1" rfl rfl rfl rfl

/-- C1 (code behavior at the claim's scenarios): the target loop keeps
processing after a failure, but the exit flag is inverted — a run whose
single target succeeds exits 1, and a run with one failing target exits 0
while still completing the other target. -/
theorem claim_C1_exit_inverted :
    mainExitCode clientExit () ["good"] = 1 ∧
    mainExitCode clientExit () ["good", "bad"] = 0 ∧
    (runTargets clientExit () false ["bad", "good"]).2.2 =
      [("bad", some (.retrieveCRDFailed "boom")), ("good", none)] := by
  refine ⟨?_, ?_, ?_⟩ <;> decide

/-- C4 counterexample: for a NamespaceScoped CRD with no served version and
one existing namespace, the target fails with NoServedVersion but a
(namespace) list call has already been attempted — so "causes no list or
patch calls to be attempted for that target" is false as stated; and with
zero namespaces the same CRD produces no NoServedVersion failure at all. -/
theorem claim_C4_cex :
    (removeResources clientOneNS () crdUnserved).result = some .noServedVersion ∧
    Call.listNamespaces ∈ (removeResources clientOneNS () crdUnserved).calls ∧
    (removeResources clientZeroNS () crdUnserved).result = none := by
  refine ⟨?_, ?_, ?_⟩ <;> decide

/-- C4 (amended): API version resolution returns `"<group>/<name>"` for the
first version in listed order whose served flag is true; when no version is
served it fails with NoServedVersion, which is fatal for the current target
whenever resolution is attempted, and no object list or patch call is ever
issued for that target — though for a NamespaceScoped CRD the namespace
list call precedes resolution (and with zero namespaces resolution is never
attempted). -/
theorem claim_C4_amended {σ : Type} (client : Client σ) (s s₁ : σ)
    (crd : CustomResourceDefinition) (nss : List String)
    (pre post : List CRDVersion) (v : CRDVersion)
    (hns : client.listNamespaces s = (.ok nss, s₁)) :
    (crd.spec.versions = pre ++ v :: post → (∀ u ∈ pre, u.served = false) →
      v.served = true →
      getAPIVersion crd = .ok (crd.spec.group ++ "/" ++ v.name)) ∧
    ((∀ u ∈ crd.spec.versions, u.served = false) →
      getAPIVersion crd = .error .noServedVersion ∧
      (crd.spec.scope = ResourceScope.ClusterScoped →
        removeResources client s crd = ⟨some .noServedVersion, s, []⟩) ∧
      (crd.spec.scope = ResourceScope.NamespaceScoped → nss ≠ [] →
        (removeResources client s crd).result = some .noServedVersion ∧
        listObjScopes (removeResources client s crd).calls = [] ∧
        patchTrace (removeResources client s crd).calls = [])) := by
  constructor
  · intro hsplit hpre hv
    have hfs : ∀ (l : List CRDVersion), (∀ u ∈ l, u.served = false) →
        firstServed (l ++ v :: post) = some v := by
      intro l hl
      induction l with
      | nil => simp [firstServed, hv]
      | cons u rest ih =>
        have hu : u.served = false := hl u (by simp)
        rw [List.cons_append, firstServed, hu]
        simp only [Bool.false_eq_true, if_false]
        exact ih (fun x hx => hl x (by simp [hx]))
    rw [getAPIVersion, hsplit, hfs pre hpre]
  · intro hnone
    have hfs : ∀ (l : List CRDVersion), (∀ u ∈ l, u.served = false) →
        firstServed l = none := by
      intro l hl
      induction l with
      | nil => rfl
      | cons u rest ih =>
        have hu : u.served = false := hl u (by simp)
        rw [firstServed, hu]
        simp only [Bool.false_eq_true, if_false]
        exact ih (fun x hx => hl x (by simp [hx]))
    have hv : getAPIVersion crd = .error .noServedVersion := by
      rw [getAPIVersion, hfs _ hnone]
    refine ⟨hv, ?_, ?_⟩
    · intro hscope
      have hnsns : crd.spec.scope ≠ ResourceScope.NamespaceScoped := by
        rw [hscope]
        intro hcontra
        cases hcontra
      rw [removeResources, if_neg hnsns, removeResourcesWithOpts, hv]
    · intro hscope hne
      rcases nss with _ | ⟨n, rest⟩
      · exact absurd rfl hne
      · have h : removeResources client s crd =
            ⟨some .noServedVersion, s₁, [.listNamespaces]⟩ := by
          rw [removeResources, if_pos hscope]
          simp only [hns, nsLoop, removeResourcesWithOpts, hv]
        refine ⟨?_, ?_, ?_⟩ <;> rw [h] <;> rfl

/-- Witness for the amended C4: the spec's selection example resolves to
`example.com/v1beta1` (first served version in listed order, not v1); an
all-unserved cluster-scoped CRD fails with NoServedVersion issuing no calls
at all; an all-unserved namespace-scoped CRD with one namespace also fails
with NoServedVersion. -/
theorem claim_C4_amended_witness :
    getAPIVersion crdMultiVersion = .ok "example.com/v1beta1" ∧
    removeResources clientOneNS () crdUnservedCS = ⟨some .noServedVersion, (), []⟩ ∧
    (removeResources clientOneNS () crdUnserved).result = some .noServedVersion := by
  refine ⟨?_, ?_, ?_⟩
  · exact (claim_C4_amended (σ := Unit) clientOneNS () () crdMultiVersion ["ns1"]
      [⟨"v1alpha1", false⟩] [⟨"v1", true⟩] ⟨"v1beta1", true⟩ rfl).1 rfl (by decide) rfl
  · exact ((claim_C4_amended (σ := Unit) clientOneNS () () crdUnservedCS ["ns1"]
      [] [] ⟨"", false⟩ rfl).2 (by decide)).2.1 rfl
  · exact (((claim_C4_amended (σ := Unit) clientOneNS () () crdUnserved ["ns1"]
      [] [] ⟨"", false⟩ rfl).2 (by decide)).2.2 rfl (by decide)).1

/-- C2: in a successful sweep, a NamespaceScoped CRD gets exactly one
object list call per existing namespace — scoped to that namespace, in the
order the single namespace list call returned them — and no cluster-wide
unscoped object list; a ClusterScoped CRD gets exactly one unscoped object
list call and no namespace list call. -/
theorem claim_C2 {σ : Type} (client : Client σ) (s s₁ : σ)
    (crd : CustomResourceDefinition) (nss : List String)
    (hns : client.listNamespaces s = (.ok nss, s₁))
    (hok : (removeResources client s crd).result = none) :
    (crd.spec.scope = ResourceScope.NamespaceScoped →
      nsListCount (removeResources client s crd).calls = 1 ∧
      listObjScopes (removeResources client s crd).calls = nss.map some) ∧
    (crd.spec.scope = ResourceScope.ClusterScoped →
      nsListCount (removeResources client s crd).calls = 0 ∧
      listObjScopes (removeResources client s crd).calls = [none]) := by
  constructor
  · intro hscope
    rw [removeResources, if_pos hscope] at hok ⊢
    simp only [hns] at hok ⊢
    have hloop : (nsLoop client crd s₁ nss).result = none := hok
    obtain ⟨hscopes, hcount⟩ := nsLoop_ok_calls client crd nss s₁ hloop
    constructor
    · show nsListCount (Call.listNamespaces :: (nsLoop client crd s₁ nss).calls) = 1
      rw [nsListCount, List.filter_cons]
      simp only [nsListCount] at hcount
      simp [hcount]
    · show listObjScopes (Call.listNamespaces :: (nsLoop client crd s₁ nss).calls) = nss.map some
      rw [listObjScopes, List.filterMap_cons]
      simp only [listObjScopes] at hscopes
      simpa using hscopes
  · intro hscope
    have hnsns : crd.spec.scope ≠ ResourceScope.NamespaceScoped := by
      rw [hscope]
      intro hcontra
      cases hcontra
    rw [removeResources, if_neg hnsns] at hok ⊢
    obtain ⟨av, _, hscopes, hcount⟩ := removeResourcesWithOpts_ok_calls client s crd none hok
    exact ⟨hcount, hscopes⟩

/-- Witness for C2: two namespaces give exactly the two scoped list calls
for a NamespaceScoped CRD, and one unscoped call for a ClusterScoped CRD. -/
theorem claim_C2_witness :
    nsListCount (removeResources clientTwoNS () crdNS).calls = 1 ∧
    listObjScopes (removeResources clientTwoNS () crdNS).calls = [some "ns1", some "ns2"] ∧
    nsListCount (removeResources clientTwoNS () crdCS).calls = 0 ∧
    listObjScopes (removeResources clientTwoNS () crdCS).calls = [none] := by
  have h1 := (claim_C2 clientTwoNS () () crdNS ["ns1", "ns2"] rfl (by decide)).1 rfl
  have h2 := (claim_C2 clientTwoNS () () crdCS ["ns1", "ns2"] rfl (by decide)).2 rfl
  exact ⟨h1.1, h1.2, h2.1, h2.2⟩

/-- C5: the sweep's patch loop (over the listed instances) skips every
instance with an empty finalizer list — its patch calls are exactly one per
instance with a non-empty finalizer list, in order — and each patch sent is
the merge diff of the original object against its finalizers-cleared copy:
it mentions only the finalizers component (clearing it), and applying it to
the original changes the finalizers to empty and nothing else. -/
theorem claim_C5 {σ : Type} (client : Client σ) (s : σ) (objs : List Unstructured)
    (hpatch : ∀ (t : σ) (o : Unstructured) (p : MergePatch), (client.patch t o p).1 = none)
    (hkeys : ∀ o ∈ objs, (o.fields.map Prod.fst).Nodup) :
    (patchLoop client s objs).result = none ∧
    patchTrace (patchLoop client s objs).calls =
      (objs.filter (fun o => !(o.finalizers.length == 0))).map
        (fun o => (objIdent o, clearPatch o)) ∧
    (∀ o ∈ objs, o.finalizers ≠ [] →
      (clearPatch o).name? = none ∧ (clearPatch o).ns? = none ∧
      (clearPatch o).finalizers? = some [] ∧ (clearPatch o).fields? = [] ∧
      applyMergePatch o (clearPatch o) = o.setFinalizers []) := by
  obtain ⟨hres, htrace⟩ := patchLoop_ok_trace client hpatch objs s
  exact ⟨hres, htrace, fun o ho hfin => clearPatch_surgical o hfin (hkeys o ho)⟩

/-- Witness for C5: one clean and one stuck instance; only the stuck one is
patched, with the surgical finalizer-clearing patch. -/
theorem claim_C5_witness :
    patchTrace (patchLoop clientSweep () [objClean, objStuck]).calls =
      [(objIdent objStuck, clearPatch objStuck)] ∧
    (clearPatch objStuck).finalizers? = some [] ∧
    (clearPatch objStuck).fields? = [] ∧
    applyMergePatch objStuck (clearPatch objStuck) = objStuck.setFinalizers [] := by
  have h := claim_C5 clientSweep () [objClean, objStuck]
    (fun t o p => rfl) (by decide)
  have hs := h.2.2 objStuck (by simp) (by decide)
  exact ⟨h.2.1, hs.2.2.1, hs.2.2.2.1, hs.2.2.2.2⟩

/-- C6: a patch failure aborts the sweep of the current target immediately
and the error names the failing resource.  Part one: a per-scope sweep that
returns a patch error listed some items, the error's identifier is the
failing instance's `namespace/name` (bare `name` when it has no namespace),
and the patch loop's outcome is the same as if every later instance were
dropped.  Part two: when a namespace sweep returns a patch error, the
namespace loop's outcome is the same as if every later namespace were
dropped. -/
theorem claim_C6 {σ : Type} (client : Client σ) (s s₁ : σ)
    (crd : CustomResourceDefinition) (opts : Option String) (i e : String)
    (nss : List String) :
    ((removeResourcesWithOpts client s crd opts).result = some (.patchFailed i e) →
      ∃ av items sl pre bad post,
        getAPIVersion crd = .ok av ∧
        client.listObjects s av crd.spec.names.kind opts = (.ok items, sl) ∧
        items = pre ++ bad :: post ∧
        ¬ bad.finalizers.length = 0 ∧
        i = objIdent bad ∧
        (bad.ns = "" → i = bad.name) ∧
        (bad.ns ≠ "" → i = bad.ns ++ "/" ++ bad.name) ∧
        patchLoop client sl items = patchLoop client sl (pre ++ [bad])) ∧
    (crd.spec.scope = ResourceScope.NamespaceScoped →
      client.listNamespaces s = (.ok nss, s₁) →
      (removeResources client s crd).result = some (.patchFailed i e) →
      ∃ preNs bad postNs, nss = preNs ++ bad :: postNs ∧
        nsLoop client crd s₁ nss = nsLoop client crd s₁ (preNs ++ [bad])) := by
  constructor
  · intro h
    obtain ⟨av, items, sl, pre, bad, post, hv, hl, hsplit, hbad, hident, heq⟩ :=
      removeResourcesWithOpts_patchFailed client s crd opts i e h
    refine ⟨av, items, sl, pre, bad, post, hv, hl, hsplit, hbad, hident, ?_, ?_, heq⟩
    · intro hns0
      rw [hident]
      exact (objIdent_format bad).1 hns0
    · intro hns1
      rw [hident]
      exact (objIdent_format bad).2 hns1
  · intro hscope hns h
    rw [removeResources, if_pos hscope] at h
    simp only [hns] at h
    exact nsLoop_err_stops client crd nss s₁ (.patchFailed i e) h

/-- Witness for C6: the second listed instance's patch is denied; the sweep
fails naming `ns1/stuck` and the third instance is never reached. -/
theorem claim_C6_witness :
    (∃ av items sl pre bad post,
      getAPIVersion crdNS = .ok av ∧
      clientDenyPatch.listObjects () av crdNS.spec.names.kind (some "ns1") = (.ok items, sl) ∧
      items = pre ++ bad :: post ∧
      ¬ bad.finalizers.length = 0 ∧
      "ns1/stuck" = objIdent bad ∧
      (bad.ns = "" → "ns1/stuck" = bad.name) ∧
      (bad.ns ≠ "" → "ns1/stuck" = bad.ns ++ "/" ++ bad.name) ∧
      patchLoop clientDenyPatch sl items = patchLoop clientDenyPatch sl (pre ++ [bad])) ∧
    (∃ preNs bad postNs, ["ns1"] = preNs ++ bad :: postNs ∧
      nsLoop clientDenyPatch crdNS () ["ns1"] =
        nsLoop clientDenyPatch crdNS () (preNs ++ [bad])) := by
  have h := claim_C6 clientDenyPatch () () crdNS (some "ns1") "ns1/stuck" "denied" ["ns1"]
  exact ⟨h.1 (by decide), h.2 rfl rfl (by decide)⟩

/-- After a successful fetch, delete, and sweep, `nukeCRD` is the poll
phase: converged gives success, interrupted gives success plus the warning,
a failed fetch gives a fatal error. -/
theorem nukeCRD_poll_shape {σ : Type} (client : Client σ) (s s₁ s₂ : σ) (crdName : String)
    (crd : CustomResourceDefinition)
    (hget : client.getCRD s crdName = (.ok crd, s₁))
    (hdel : client.deleteCRD s₁ crd = (none, s₂))
    (hswok : (removeResources client s₂ crd).result = none) :
    nukeCRD client s crdName =
      (let sweep := removeResources client s₂ crd
       let poll := pollLoop client crdName pollTicks sweep.state
       let calls := Call.getCRD crdName :: Call.deleteCRD crd.name :: (sweep.calls ++ poll.calls)
       match poll.result with
       | .converged => ⟨none, poll.state, calls, []⟩
       | .interrupted => ⟨none, poll.state, calls, [crdStillExistsWarning]⟩
       | .failed e => ⟨some (.finalCheckFailed e), poll.state, calls, []⟩) := by
  rw [nukeCRD]
  simp only [hget, hdel, hswok]

/-- C7: the convergence wait re-fetches the CRD by name each tick, at the
source's constants of 100ms interval and 5s total timeout (50 ticks); a
not-found fetch ends polling at once with success; exhausting the ticks
while the CRD still exists ends with overall success plus the logged
warning; any other fetch error during polling is returned as a fatal error
for the target. -/
theorem claim_C7 {σ : Type} (client : Client σ) (s s₁ s₂ : σ) (crdName : String)
    (crd : CustomResourceDefinition) (e : String)
    (hget : client.getCRD s crdName = (.ok crd, s₁))
    (hdel : client.deleteCRD s₁ crd = (none, s₂))
    (hswok : (removeResources client s₂ crd).result = none) :
    pollInterval = 100 ∧ pollTimeout = 5000 ∧ pollTicks = pollTimeout / pollInterval ∧
    (∀ c ∈ (pollLoop client crdName pollTicks
        (removeResources client s₂ crd).state).calls, c = Call.getCRD crdName) ∧
    (pollLoop client crdName pollTicks
        (removeResources client s₂ crd).state).calls.length ≤ pollTicks ∧
    (∀ (fuel : Nat) (t t₁ : σ), client.getCRD t crdName = (.notFound, t₁) →
      pollLoop client crdName (fuel + 1) t = ⟨.converged, t₁, [.getCRD crdName]⟩) ∧
    ((pollLoop client crdName pollTicks
        (removeResources client s₂ crd).state).result = .converged →
      (nukeCRD client s crdName).result = none ∧
      (nukeCRD client s crdName).warnings = []) ∧
    ((pollLoop client crdName pollTicks
        (removeResources client s₂ crd).state).result = .interrupted →
      (nukeCRD client s crdName).result = none ∧
      (nukeCRD client s crdName).warnings = [crdStillExistsWarning]) ∧
    ((pollLoop client crdName pollTicks
        (removeResources client s₂ crd).state).result = .failed e →
      (nukeCRD client s crdName).result = some (.finalCheckFailed e)) ∧
    ((∀ t : σ, ∃ c t₁, client.getCRD t crdName = (.ok c, t₁)) →
      (pollLoop client crdName pollTicks
        (removeResources client s₂ crd).state).result = .interrupted) := by
  refine ⟨rfl, rfl, rfl,
    (pollLoop_calls_bound client crdName pollTicks _).1,
    (pollLoop_calls_bound client crdName pollTicks _).2,
    fun fuel t t₁ h => pollLoop_notFound_step client crdName fuel t t₁ h,
    ?_, ?_, ?_,
    fun hall => pollLoop_allFound client crdName hall pollTicks _⟩
  · intro hconv
    rw [nukeCRD_poll_shape client s s₁ s₂ crdName crd hget hdel hswok]
    simp [hconv]
  · intro hint
    rw [nukeCRD_poll_shape client s s₁ s₂ crdName crd hget hdel hswok]
    simp [hint]
  · intro hfail
    rw [nukeCRD_poll_shape client s s₁ s₂ crdName crd hget hdel hswok]
    simp only [hfail]

/-- Witness for C7: a CRD whose fetch always succeeds exhausts the poll;
the run still returns success, with the warning logged. -/
theorem claim_C7_witness :
    (pollLoop clientPersistent "things.example.com" pollTicks ()).result = .interrupted ∧
    (nukeCRD clientPersistent () "things.example.com").result = none ∧
    (nukeCRD clientPersistent () "things.example.com").warnings = [crdStillExistsWarning] := by
  have h := claim_C7 clientPersistent () () () "things.example.com" crdMultiVersion ""
    (by decide) (by decide) (by decide)
  obtain ⟨-, -, -, -, -, -, -, hint, -, hall⟩ := h
  have hi := hall (fun t => ⟨crdMultiVersion, t, rfl⟩)
  exact ⟨hi, (hint hi).1, (hint hi).2⟩

/-- C9: against the deterministic cluster (state evolving only through the
tool's own calls), a successful nuke followed by a second nuke of the same
name succeeds both times, and the second invocation is a pure no-op: its
trace is the single CRD fetch — no delete, no namespace or object list, no
patch — and the cluster state is unchanged. -/
theorem claim_C9 (st : ClusterState) (crdName : String)
    (h : (nukeCRD clusterClient st crdName).result = none) :
    (nukeCRD clusterClient st crdName).result = none ∧
    nukeCRD clusterClient (nukeCRD clusterClient st crdName).state crdName =
      ⟨none, (nukeCRD clusterClient st crdName).state, [.getCRD crdName], []⟩ :=
  ⟨h, nukeCRD_cluster_absent _ crdName (nukeCRD_cluster_gone st crdName)⟩

/-- Witness for C9: a cluster with one namespace-scoped CRD and one stuck
instance; the first nuke succeeds end to end and the second is the no-op. -/
theorem claim_C9_witness :
    (nukeCRD clusterClient clusterW "widgets.example.com").result = none ∧
    nukeCRD clusterClient (nukeCRD clusterClient clusterW "widgets.example.com").state
        "widgets.example.com" =
      ⟨none, (nukeCRD clusterClient clusterW "widgets.example.com").state,
        [.getCRD "widgets.example.com"], []⟩ :=
  claim_C9 clusterW "widgets.example.com" (by decide)
